import Mathlib

/-!
# Verification of the EasyLead Lead Acquisition & Normalization Pipeline

Shallow embedding of the EasyLead repository sources:
- `src/components/LeadTable.tsx` (field validators used by the table view),
- `src/unnamed/part_000` (a MapView component with its own field validators),
- `src/services/businessService.ts` (two revisions of `findBusinessLeads`,
  the "pro" variant and the "flash" variant, plus `calculateDistance`),
- `src/App.tsx` (`performSearch` state updates).

JavaScript strings become `String`, `null`/`undefined` become `Option`,
JS truthiness is modelled explicitly, numbers in validated code paths are
exact (`Int`/`ℝ`), and ambient reads (`Date.now()`, `new Date()`) are
passed in as parameters.
-/

/-- JS truthiness for a nullable string: `null`/`undefined` and `""` are falsy. -/
def jsTruthyStr : Option String → Bool
  | none => false
  | some s => s ≠ ""

/-- Model of `x || null` on a nullable string: keep the value only if truthy. -/
def orNull (o : Option String) : Option String :=
  if jsTruthyStr o then o else none

/-- Model of `x || d` on a nullable string with a string default. -/
def orDefault (o : Option String) (d : String) : String :=
  match o with
  | none => d
  | some s => if s = "" then d else s

/-- Executable substring test on char lists (model of JS `String.includes`). -/
def listIncludes (s pat : List Char) : Bool :=
  pat.isPrefixOf s ||
    match s with
    | [] => false
    | _ :: t => listIncludes t pat

/-- Model of JS `String.includes`: does `pat` occur as a contiguous substring of `s`? -/
def strIncludes (s pat : String) : Bool :=
  listIncludes s.toList pat.toList

/-- Model of JS `str.replace(/[^0-9]/g, '')`: keep only decimal digit characters. -/
def digitsOf (s : String) : List Char :=
  s.toList.filter Char.isDigit

/-- Model of JS `String.prototype.trim`: drop leading and trailing whitespace. -/
def jsTrim (l : List Char) : List Char :=
  ((l.dropWhile Char.isWhitespace).reverse.dropWhile Char.isWhitespace).reverse

/-- Packaging of `jsTrim` on strings. -/
def strTrim (s : String) : String :=
  (jsTrim s.toList).asString

/-- Model of JS `String.prototype.toLowerCase` (ASCII range, as used here). -/
def strLower (s : String) : String :=
  (s.toList.map Char.toLower).asString

/-- Model of the JS regex `/^(.)\1+$/`: a string of length at least two
whose characters are all equal. -/
def isRepeating : List Char → Bool
  | [] => false
  | c :: rest => !rest.isEmpty && rest.all (· = c)

namespace LeadTable

/-- The `invalidKeywords` list from `src/components/LeadTable.tsx` line 52. -/
def invalidKeywords : List String :=
  ["null", "na", "n/a", "none", "undefined", "not available", "missing",
   "hidden", "private", "no number", "unknown"]

/-- Function `isValueValid` from `src/components/LeadTable.tsx` lines 49-55:
falsy input is invalid; trim and lower-case; reject when equal to or
containing a noise keyword; otherwise require length strictly above 5. -/
def isValueValid (val : Option String) : Bool :=
  match val with
  | none => false
  | some s =>
    if s = "" then false
    else
      let v := strLower (strTrim s)
      if invalidKeywords.any (fun k => v = k || strIncludes v k) then false
      else v.length > 5

/-- Function `isPhoneValid` from `src/components/LeadTable.tsx` lines 57-63:
`isValueValid` must pass; then the digit-stripped form must have between
8 and 15 digits and must not be a single repeated digit. -/
def isPhoneValid (phone : Option String) : Bool :=
  if !isValueValid phone then false
  else
    let digits := digitsOf (phone.getD "")
    digits.length ≥ 8 && digits.length ≤ 15 && !isRepeating digits

end LeadTable

namespace MapView

/-- The `invalidKeywords` list from `src/unnamed/part_000` line 19 (no
`"no number"`/`"unknown"` entries, unlike the LeadTable list). -/
def invalidKeywords : List String :=
  ["null", "na", "n/a", "none", "undefined", "not available", "missing",
   "hidden", "private"]

/-- Function `isValueValid` from `src/unnamed/part_000` lines 16-22: like the
LeadTable variant but with length threshold 1. -/
def isValueValid (val : Option String) : Bool :=
  match val with
  | none => false
  | some s =>
    if s = "" then false
    else
      let v := strLower (strTrim s)
      if invalidKeywords.any (fun k => v = k || strIncludes v k) then false
      else v.length > 1

/-- Function `isPhoneValid` from `src/unnamed/part_000` lines 24-29: requires
`isValueValid`, at least 8 digits, not a repeated digit. There is no
upper bound on the number of digits in this variant. -/
def isPhoneValid (phone : Option String) : Bool :=
  if !isValueValid phone then false
  else
    let digits := digitsOf (phone.getD "")
    digits.length ≥ 8 && !isRepeating digits

end MapView


/-! ## JSON model (shallow embedding of the relevant `JSON.parse` fragment)

Numbers keep their source lexeme: no claim inspects a parsed numeric value,
only nullness/emptiness, so exact float semantics are not needed. -/

inductive JsonVal where
  | null
  | bool (b : Bool)
  | num (lexeme : String)
  | str (s : String)
  | arr (elems : List JsonVal)
  | obj (fields : List (String × JsonVal))

/-- JSON insignificant whitespace. -/
def skipWs : List Char → List Char
  | c :: t => if c = ' ' || c = '\t' || c = '\n' || c = '\r' then skipWs t else c :: t
  | [] => []

/-- Value of a hexadecimal digit character. -/
def hexDigitVal (c : Char) : Option Nat :=
  if c.isDigit then some (c.toNat - 48)
  else if 97 ≤ c.toNat && c.toNat ≤ 102 then some (c.toNat - 87)
  else if 65 ≤ c.toNat && c.toNat ≤ 70 then some (c.toNat - 55)
  else none

/-- Code point mapped to by a JSON string escape character other than `\u`
(quote 34, backslash 92, slash 47, backspace 8, formfeed 12, newline 10,
carriage return 13, tab 9). -/
def escCode (e : Char) : Option Nat :=
  if e = '"' then some 34
  else if e.toNat = 92 then some 92
  else if e = '/' then some 47
  else if e = 'b' then some 8
  else if e = 'f' then some 12
  else if e = 'n' then some 10
  else if e = 'r' then some 13
  else if e = 't' then some 9
  else none

/-- JSON string escape characters (other than `\u`). -/
def escChar (e : Char) : Option Char :=
  (escCode e).map Char.ofNat

/-- Parse the remainder of a JSON string literal (after the opening quote). -/
def parseStringRest : Nat → List Char → Option (List Char × List Char)
  | 0, _ => none
  | _ + 1, [] => none
  | f + 1, c :: t =>
    if c = '"' then some ([], t)
    else if c.toNat < 32 then none
    else if c = '\\' then
      match t with
      | [] => none
      | e :: t2 =>
        if e = 'u' then
          match t2 with
          | h1 :: h2 :: h3 :: h4 :: t3 =>
            match hexDigitVal h1, hexDigitVal h2, hexDigitVal h3, hexDigitVal h4 with
            | some a, some b, some c2, some d =>
              (parseStringRest f t3).map
                (fun p => (Char.ofNat (((a * 16 + b) * 16 + c2) * 16 + d) :: p.1, p.2))
            | _, _, _, _ => none
          | _ => none
        else
          match escChar e with
          | some ec => (parseStringRest f t2).map (fun p => (ec :: p.1, p.2))
          | none => none
    else (parseStringRest f t).map (fun p => (c :: p.1, p.2))

/-- One or more decimal digits. -/
def parseDigits1 (l : List Char) : Option (List Char × List Char) :=
  let ds := l.takeWhile Char.isDigit
  if ds.isEmpty then none else some (ds, l.drop ds.length)

/-- Optional JSON fraction part. -/
def parseFrac : List Char → Option (List Char × List Char)
  | '.' :: t =>
    (match parseDigits1 t with
     | some (ds, r) => some ('.' :: ds, r)
     | none => none)
  | l => some ([], l)

/-- Optional JSON exponent part. -/
def parseExp : List Char → Option (List Char × List Char)
  | [] => some ([], [])
  | c :: t =>
    if c = 'e' || c = 'E' then
      let st : List Char × List Char :=
        match t with
        | s :: t3 => if s = '+' || s = '-' then ([s], t3) else ([], s :: t3)
        | [] => ([], [])
      match parseDigits1 st.2 with
      | some (ds, r) => some (c :: st.1 ++ ds, r)
      | none => none
    else some ([], c :: t)

/-- JSON number lexeme: `-? (0 | [1-9][0-9]*) frac? exp?`. -/
def parseNumber (l : List Char) : Option (String × List Char) :=
  let sg : List Char × List Char :=
    match l with
    | c :: t => if c = '-' then (['-'], t) else ([], c :: t)
    | [] => ([], [])
  match sg.2 with
  | [] => none
  | c :: t =>
    if c = '0' then
      match parseFrac t with
      | some (fr, r1) =>
        (match parseExp r1 with
         | some (ex, r2) => some ((sg.1 ++ ['0'] ++ fr ++ ex).asString, r2)
         | none => none)
      | none => none
    else if c.isDigit then
      match parseDigits1 (c :: t) with
      | some (ds, r0) =>
        (match parseFrac r0 with
         | some (fr, r1) =>
           (match parseExp r1 with
            | some (ex, r2) => some ((sg.1 ++ ds ++ fr ++ ex).asString, r2)
            | none => none)
         | none => none)
      | none => none
    else none

mutual

/-- Parse one JSON value (fuel-indexed recursive descent). -/
def parseValue : Nat → List Char → Option (JsonVal × List Char)
  | 0, _ => none
  | f + 1, l =>
    match skipWs l with
    | [] => none
    | c :: t =>
      if c = 'n' then
        if ['u', 'l', 'l'].isPrefixOf t then some (.null, t.drop 3) else none
      else if c = 't' then
        if ['r', 'u', 'e'].isPrefixOf t then some (.bool true, t.drop 3) else none
      else if c = 'f' then
        if ['a', 'l', 's', 'e'].isPrefixOf t then some (.bool false, t.drop 4) else none
      else if c = '"' then
        (parseStringRest (t.length + 1) t).map (fun p => (.str p.1.asString, p.2))
      else if c = '[' then
        match skipWs t with
        | ']' :: r => some (.arr [], r)
        | t2 => (parseElems f t2).map (fun p => (.arr p.1, p.2))
      else if c = '\x7b' then
        match skipWs t with
        | '\x7d' :: r => some (.obj [], r)
        | t2 => (parseMembers f t2).map (fun p => (.obj p.1, p.2))
      else if c = '-' || c.isDigit then
        (parseNumber (c :: t)).map (fun p => (.num p.1, p.2))
      else none

/-- Parse the non-empty element list of a JSON array (terminating `]`). -/
def parseElems : Nat → List Char → Option (List JsonVal × List Char)
  | 0, _ => none
  | f + 1, l =>
    match parseValue f l with
    | none => none
    | some (v, rest) =>
      match skipWs rest with
      | ',' :: t =>
        (match parseElems f t with
         | some (vs, r) => some (v :: vs, r)
         | none => none)
      | ']' :: t => some ([v], t)
      | _ => none

/-- Parse the non-empty member list of a JSON object (terminating brace). -/
def parseMembers : Nat → List Char → Option (List (String × JsonVal) × List Char)
  | 0, _ => none
  | f + 1, l =>
    match skipWs l with
    | '"' :: t =>
      match parseStringRest (t.length + 1) t with
      | none => none
      | some (key, r1) =>
        match skipWs r1 with
        | ':' :: r2 =>
          (match parseValue f r2 with
           | none => none
           | some (v, r3) =>
             match skipWs r3 with
             | ',' :: r4 =>
               (match parseMembers f r4 with
                | some (ms, r5) => some ((key.asString, v) :: ms, r5)
                | none => none)
             | '\x7d' :: r4 => some ([(key.asString, v)], r4)
             | _ => none)
        | _ => none
    | _ => none

end

/-- Model of JS `JSON.parse`: parse one value and require only trailing
whitespace after it; `none` models a thrown `SyntaxError`. -/
def jsonParse (s : String) : Option JsonVal :=
  match parseValue (s.length + 1) s.toList with
  | some (v, rest) => if skipWs rest = [] then some v else none
  | none => none


/-! ## ResponseExtractor (`src/services/businessService.ts`, flash variant lines 199-222) -/

/-- Zero flag of a JSON number lexeme: a JSON number denotes 0 exactly when
every digit before the exponent marker is `0`. -/
def numIsZero (lexeme : String) : Bool :=
  (lexeme.toList.takeWhile (fun c => c ≠ 'e' && c ≠ 'E')).all (fun c => !c.isDigit || c = '0')

/-- JS falsiness of a parsed JSON value (`null`, `false`, `0`, `""`). -/
def jsFalsy : JsonVal → Bool
  | .null => true
  | .bool b => !b
  | .num lx => numIsZero lx
  | .str s => s = ""
  | _ => false

/-- Model of lines 220-222: `if (!Array.isArray(results)) results = results ? [results] : []`. -/
def wrapResults : JsonVal → List JsonVal
  | .arr xs => xs
  | v => if jsFalsy v then [] else [v]

/-- Model of JS `String.prototype.indexOf` for a single character. -/
def firstIdxOf (l : List Char) (c : Char) : Option Nat :=
  l.findIdx? (· = c)

/-- Model of JS `String.prototype.lastIndexOf` for a single character. -/
def lastIdxOf (l : List Char) (c : Char) : Option Nat :=
  match l.reverse.findIdx? (· = c) with
  | some j => some (l.length - 1 - j)
  | none => none

/-- Model of JS `String.prototype.substring`: clamps both endpoints to the
string length and swaps them when the start exceeds the end. -/
def jsSubstring (l : List Char) (a b : Nat) : List Char :=
  let a2 := min a l.length
  let b2 := min b l.length
  (l.drop (min a2 b2)).take (max a2 b2 - min a2 b2)

/-- The parse-failure message thrown at line 217. -/
def parseErrorMsg : String :=
  "The AI returned data in an unexpected format. Please try your search again."

/-- The `ResponseExtractor`: extraction logic of `findBusinessLeads` (flash
variant, lines 199-222). Locate the first `[` and the last `]`; if both
exist parse that substring, otherwise parse the whole text; any parse
failure raises the ParseError message; a non-array result is wrapped
(falsy values giving the empty batch). -/
def extract (text : String) : Except String (List JsonVal) :=
  let cs := text.toList
  let parsed : Option JsonVal :=
    match firstIdxOf cs '[', lastIdxOf cs ']' with
    | some s, some e => jsonParse (jsSubstring cs s (e + 1)).asString
    | _, _ => jsonParse text
  match parsed with
  | none => .error parseErrorMsg
  | some v => .ok (wrapResults v)


/-! ## LeadNormalizer (`src/services/businessService.ts` lines 91-119, pro
variant, and lines 224-247, flash variant)

`RawCandidate` is the untrusted duck-typed record: every field may be
absent (`none` models both JS `null` and `undefined`). Numeric fields that
arrive non-numeric are also collapsed to `none` (their `Number(...)`
coercion yields `NaN`, which `|| 0` sends to `0`, the same as `none` here). -/

structure RawItem where
  name : Option String := none
  address : Option String := none
  formatted_phone_number : Option String := none
  phone : Option String := none
  email : Option String := none
  website : Option String := none
  owner : Option String := none
  maps_url : Option String := none
  lat : Option Int := none
  lng : Option Int := none
  rating : Option Int := none
  userRatingsTotal : Option Int := none
  reviews_count : Option Int := none
  deriving DecidableEq

/-- The canonical Lead entity (`BusinessLead` interface in the types file). -/
structure BusinessLead where
  id : String
  name : String
  address : String
  phone : Option String
  website : Option String
  email : Option String
  owner : Option String
  lat : Int
  lng : Int
  distance : Option Int
  source : String
  mapsUrl : String
  lastUpdated : String
  rating : Option Int
  userRatingsTotal : Option Int
  deriving DecidableEq

/-- Model of `x || null` on a nullable number (JS sends `0` to `null`). -/
def orNullInt (o : Option Int) : Option Int :=
  match o with
  | none => none
  | some n => if n = 0 then none else some n

/-- Model of `Number(x) || 0`: absent or non-numeric (hence `NaN`) becomes `0`. -/
def numOr0 (o : Option Int) : Int :=
  o.getD 0

/-- JS string coercion of a possibly-absent string field (as in
`item.name + ' ' + item.address`). -/
def rawStr (o : Option String) : String :=
  o.getD "undefined"

/-- UTF-8 bytes of a code point. -/
def utf8Bytes (n : Nat) : List Nat :=
  if n < 128 then [n]
  else if n < 2048 then [192 + n / 64, 128 + n % 64]
  else if n < 65536 then [224 + n / 4096, 128 + (n / 64) % 64, 128 + n % 64]
  else [240 + n / 262144, 128 + (n / 4096) % 64, 128 + (n / 64) % 64, 128 + n % 64]

/-- Upper-case hexadecimal digit. -/
def hexDigitChar (n : Nat) : Char :=
  if n < 10 then Char.ofNat (48 + n) else Char.ofNat (55 + n)

/-- Characters `encodeURIComponent` leaves unescaped. -/
def isUnreservedUri (c : Char) : Bool :=
  c.isAlphanum || c = '-' || c = '_' || c = '.' || c = '!' || c = '~' ||
    c = '*' || c.toNat = 39 || c = '(' || c = ')'

/-- Model of JS `encodeURIComponent`: percent-encode the UTF-8 bytes of
every reserved character. -/
def encodeURIComponent (s : String) : String :=
  (s.toList.map (fun c =>
    if isUnreservedUri c then [c]
    else ((utf8Bytes c.toNat).map
      (fun b => ['%', hexDigitChar (b / 16), hexDigitChar (b % 16)])).flatten)).flatten.asString

/-- The synthesized maps link
`https://www.google.com/maps/search/?api=1&query=` + encoded name/address. -/
def mapsSearchUrl (item : RawItem) : String :=
  "https://www.google.com/maps/search/?api=1&query=" ++
    encodeURIComponent (rawStr item.name ++ " " ++ rawStr item.address)

/-- Lead id from line 103 / line 231: `` `lead-${Date.now()}-${index}` ``. -/
def mkId (now index : Nat) : String :=
  "lead-" ++ Nat.repr now ++ "-" ++ Nat.repr index

/-- Pro-variant placeholder filter (lines 93-100): trimmed truthy phone,
nulled when its digits number fewer than 8, are a single repeated digit,
or are exactly `1234567890`. A whitespace-only phone trims to `""`,
which skips the filter (JS `if (phone)`). -/
def sanitizePhoneV1 (raw : Option String) : Option String :=
  if jsTruthyStr raw then
    let p := strTrim (raw.getD "")
    if p = "" then some p
    else
      let digits := digitsOf p
      if digits.length < 8 || isRepeating digits || digits = "1234567890".toList then none
      else some p
  else none

/-- One candidate through the pro-variant map body (lines 91-119). -/
def normalizeItemV1 (now : Nat) (today : String) (index : Nat) (item : RawItem) : BusinessLead :=
  { id := mkId now index
    name := orDefault item.name "Business"
    address := orDefault item.address "No address found"
    phone := sanitizePhoneV1 item.formatted_phone_number
    website := orNull item.website
    email := orNull item.email
    owner := none
    lat := numOr0 item.lat
    lng := numOr0 item.lng
    distance := none
    source := "Google Search"
    mapsUrl := orDefault item.maps_url (mapsSearchUrl item)
    lastUpdated := today
    rating := orNullInt item.rating
    userRatingsTotal := orNullInt item.userRatingsTotal }

/-- One candidate through the flash-variant map body (lines 224-247):
no phone filtering at all, `owner` passed through, maps URL always
synthesized. -/
def normalizeItemV2 (now : Nat) (today : String) (index : Nat) (item : RawItem) : BusinessLead :=
  { id := mkId now index
    name := orDefault item.name "Business"
    address := orDefault item.address "Address not found"
    phone := orNull item.phone
    website := orNull item.website
    email := orNull item.email
    owner := orNull item.owner
    lat := numOr0 item.lat
    lng := numOr0 item.lng
    distance := none
    source := "Google Search"
    mapsUrl := mapsSearchUrl item
    lastUpdated := today
    rating := orNullInt item.rating
    userRatingsTotal := orNullInt item.reviews_count }

/-- The whole pro-variant batch map. `Date.now()` is read once per
candidate, modelled by the call-indexed clock `now`. -/
def normalizeV1 (now : Nat → Nat) (today : String) (items : List RawItem) : List BusinessLead :=
  items.enum.map (fun p => normalizeItemV1 (now p.1) today p.1 p.2)

/-- The whole flash-variant batch map. -/
def normalizeV2 (now : Nat → Nat) (today : String) (items : List RawItem) : List BusinessLead :=
  items.enum.map (fun p => normalizeItemV2 (now p.1) today p.1 p.2)


/-! ## GeoMath (`src/services/businessService.ts` lines 128-138 / 265-275)

The identical `calculateDistance` appears in both revisions. Numbers are
idealized as reals; the JS falsiness guard `!x` on a number corresponds
to `x = 0` (`NaN` has no real counterpart). -/

/-- Model of JS `Math.atan2` on the reals. -/
noncomputable def atan2 (y x : ℝ) : ℝ :=
  if 0 < x then Real.arctan (y / x)
  else if x < 0 ∧ 0 ≤ y then Real.arctan (y / x) + Real.pi
  else if x < 0 ∧ y < 0 then Real.arctan (y / x) - Real.pi
  else if x = 0 ∧ 0 < y then Real.pi / 2
  else if x = 0 ∧ y < 0 then -(Real.pi / 2)
  else 0

/-- The haversine intermediate `a` from lines 133-135. -/
noncomputable def haverA (lat1 lon1 lat2 lon2 : ℝ) : ℝ :=
  Real.sin ((lat2 - lat1) * (Real.pi / 180) / 2) * Real.sin ((lat2 - lat1) * (Real.pi / 180) / 2) +
    Real.cos (lat1 * (Real.pi / 180)) * Real.cos (lat2 * (Real.pi / 180)) *
      Real.sin ((lon2 - lon1) * (Real.pi / 180) / 2) *
      Real.sin ((lon2 - lon1) * (Real.pi / 180) / 2)

/-- Function `calculateDistance` from lines 128-138: any zero coordinate short-circuits
to 0; otherwise the haversine great-circle distance on radius 6371 km. -/
noncomputable def calculateDistance (lat1 lon1 lat2 lon2 : ℝ) : ℝ :=
  if lat1 = 0 ∨ lon1 = 0 ∨ lat2 = 0 ∨ lon2 = 0 then 0
  else
    6371 * (2 * atan2 (Real.sqrt (haverA lat1 lon1 lat2 lon2))
      (Real.sqrt (1 - haverA lat1 lon1 lat2 lon2)))

/-! ## Error classification and RetryPolicy

The classification mirrors the flash variant's catch block (lines 249-262),
the `API_KEY_MISSING` guard (line 153) and the ParseError message (line 217). -/

inductive ErrorKind where
  | credentialMissing
  | quotaExceeded
  | invalidArgument
  | parseError
  | transportError
  deriving DecidableEq

/-- Error classification at the pipeline boundary, by message content. -/
def classifyError (msg : String) : ErrorKind :=
  if strIncludes msg "API_KEY_MISSING" then .credentialMissing
  else if strIncludes msg "429" || strIncludes msg "RESOURCE_EXHAUSTED" ||
      strIncludes msg "quota" then .quotaExceeded
  else if strIncludes msg "INVALID_ARGUMENT" then .invalidArgument
  else if msg = parseErrorMsg then .parseError
  else .transportError

/-- Spec §7: quota and generic transport failures are transient/rate-limited
and retried; credential, parse and invalid-argument failures are not. -/
def ErrorKind.isRetryable : ErrorKind → Bool
  | .quotaExceeded => true
  | .transportError => true
  | _ => false

/-- Result of one invocation of a fallible operation. -/
inductive OpResult (α : Type) where
  | ok (value : α)
  | fail (msg : String)
  deriving DecidableEq

/-- Observable outcome of a retried operation: how many times the operation
was invoked, the waits performed (in order), and the final result. -/
structure RetryOutcome (α : Type) where
  invocations : Nat
  delays : List Nat
  result : OpResult α
  deriving DecidableEq

/-- Modelled from the spec: `RetryPolicy.withRetry` (§4.4). The repository
sources contain only the error classifier (the catch block of
`findBusinessLeads`); no retry loop exists under `src/`. The operation is
modelled as a function from invocation count to outcome; `remaining` is the
attempt budget, `delay` doubles after every wait. -/
def withRetryAux {α : Type} (op : Nat → OpResult α) :
    Nat → Nat → Nat → List Nat → RetryOutcome α
  | 0, _, k, ds => ⟨k, ds, .fail "retry budget exhausted"⟩
  | r + 1, delay, k, ds =>
    match op k with
    | .ok a => ⟨k + 1, ds, .ok a⟩
    | .fail msg =>
      if (classifyError msg).isRetryable && r ≠ 0 then
        withRetryAux op r (delay * 2) (k + 1) (ds ++ [delay])
      else ⟨k + 1, ds, .fail msg⟩

/-- Modelled from the spec: `withRetry(operation, maxAttempts, initialDelay)`. -/
def withRetry {α : Type} (op : Nat → OpResult α) (maxAttempts initialDelay : Nat) :
    RetryOutcome α :=
  withRetryAux op maxAttempts initialDelay 0 []

/-! ## Search state updates (`src/App.tsx` lines 163-194)

`performSearch` manipulates React state with no generation token: every
resolution applies unconditionally, in arrival order. The events model the
observable `setState` batches: the synchronous block at the top of
`performSearch`, the delayed success block, and the catch block. -/

structure SearchState where
  loading : Bool
  error : Option String
  leads : List BusinessLead
  lastQuery : Option (String × String)
  deriving DecidableEq

/-- The empty-result message assembled at line 186. -/
def noResultsMsg (cats city : String) : String :=
  "No verified results found for \"" ++ cats ++ "\" in " ++ city ++
    ". Google Search found no direct matches with verified contact data. Try searching for one category at a time."

inductive SearchEvent where
  | start (city : String) (cats : String)
  | resolveOk (city : String) (cats : String) (results : List BusinessLead)
  | resolveErr (msg : String)

/-- One `performSearch` state transition, exactly as the handlers write
state: `start` is lines 164-168, `resolveOk` is lines 182-188 (the
timeout body, with the captured query of its own invocation), `resolveErr`
is lines 189-193. No token is compared anywhere. -/
def applyEvent (s : SearchState) : SearchEvent → SearchState
  | .start city cats =>
    { s with loading := true, error := none, leads := [], lastQuery := some (city, cats) }
  | .resolveOk city cats results =>
    { s with
        leads := results
        loading := false
        error := if results.isEmpty then some (noResultsMsg cats city) else s.error }
  | .resolveErr msg => { s with error := some msg, loading := false }

/-- Run a sequence of search events from the initial App state. -/
def runSearchEvents (events : List SearchEvent) : SearchState :=
  events.foldl applyEvent ⟨false, none, [], none⟩

/-! ## Supporting lemmas -/

/-- A contiguous-substring occurrence is found by `listIncludes`. -/
theorem listIncludes_of_occurrence {s pat : List Char} (h : pat <:+: s) :
    listIncludes s pat = true := by
  induction s with
  | nil =>
    rcases h with ⟨l, r, hl⟩
    have hpat : pat = [] := (List.append_eq_nil.mp (List.append_eq_nil.mp hl).1).2
    simp [listIncludes, hpat, List.isPrefixOf]
  | cons c t ih =>
    rcases h with ⟨l, r, hl⟩
    match l with
    | [] =>
      have hpre : pat <+: c :: t := ⟨r, by simpa using hl⟩
      simp [listIncludes, List.isPrefixOf_iff_prefix.mpr hpre]
    | d :: l2 =>
      have ht : pat <:+: t := ⟨l2, r, by simpa using congrArg List.tail hl⟩
      simp [listIncludes, ih ht]

/-- The keyword check in the validators fires whenever some keyword occurs
in the normalized value. -/
theorem keyword_any_true {v : String} {ks : List String} {k : String}
    (hk : k ∈ ks) (hinf : k.toList <:+: v.toList) :
    (ks.any fun k2 => v = k2 || strIncludes v k2) = true := by
  refine List.any_eq_true.mpr ⟨k, hk, ?_⟩
  have : strIncludes v k = true := listIncludes_of_occurrence hinf
  simp [this]

/-! ## Claim theorems -/

/-- C7: `isValid` (i.e. `isValueValid`, in both the LeadTable and MapView
variants) returns false for null/empty input, and returns false for every
value whose trimmed, lower-cased form contains (in particular, equals) any
member of the fixed noise-keyword set — hence for "N/A", "null", "Hidden"
in any casing and with any surrounding whitespace. -/
theorem isValid_rejects_null_empty_and_noise :
    LeadTable.isValueValid none = false ∧
    LeadTable.isValueValid (some "") = false ∧
    MapView.isValueValid none = false ∧
    MapView.isValueValid (some "") = false ∧
    (∀ s k, k ∈ LeadTable.invalidKeywords →
      k.toList <:+: (strLower (strTrim s)).toList →
      LeadTable.isValueValid (some s) = false) ∧
    (∀ s k, k ∈ MapView.invalidKeywords →
      k.toList <:+: (strLower (strTrim s)).toList →
      MapView.isValueValid (some s) = false) := by
  refine ⟨rfl, rfl, rfl, rfl, ?_, ?_⟩
  · intro s k hk hinf
    by_cases hs : s = ""
    · simp [LeadTable.isValueValid, hs]
    · simp [LeadTable.isValueValid, hs, keyword_any_true hk hinf]
  · intro s k hk hinf
    by_cases hs : s = ""
    · simp [MapView.isValueValid, hs]
    · simp [MapView.isValueValid, hs, keyword_any_true hk hinf]

/-- Witness for the C7 theorem at concrete noisy inputs. -/
theorem isValid_rejects_null_empty_and_noise_witness :
    LeadTable.isValueValid (some "  N/A ") = false ∧
    LeadTable.isValueValid (some "NULL") = false ∧
    MapView.isValueValid (some " Hidden  ") = false :=
  ⟨isValid_rejects_null_empty_and_noise.2.2.2.2.1 "  N/A " "n/a" (by decide) (by decide),
   isValid_rejects_null_empty_and_noise.2.2.2.2.1 "NULL" "null" (by decide) (by decide),
   isValid_rejects_null_empty_and_noise.2.2.2.2.2 " Hidden  " "hidden" (by decide) (by decide)⟩

/-- C6 counterexample: the claim asserts `isPhoneValid` returns false for
any digit sequence longer than 15 characters, but the MapView variant
(`src/unnamed/part_000` lines 24-29) has no upper bound and accepts a
16-digit value. -/
theorem isPhoneValid_sixteen_digits_counterexample :
    MapView.isPhoneValid (some "1234567890123456") = true ∧
    (digitsOf "1234567890123456").length = 16 := by
  constructor <;> decide

/-- C6 amended: for inputs passing `isValueValid`, the LeadTable
`isPhoneValid` accepts exactly the 8-to-15-digit non-repeated sequences
(rejecting "0000000000", "123" and anything longer than 15 digits), while
the MapView variant imposes no upper bound: it accepts every
`isValueValid`-passing value with at least 8 digits that is not a single
repeated digit. -/
theorem isPhoneValid_digit_rules :
    (∀ s, LeadTable.isValueValid (some s) = true →
      (digitsOf s).length ≥ 8 → (digitsOf s).length ≤ 15 →
      isRepeating (digitsOf s) = false →
      LeadTable.isPhoneValid (some s) = true) ∧
    LeadTable.isPhoneValid (some "0000000000") = false ∧
    LeadTable.isPhoneValid (some "123") = false ∧
    (∀ s, (digitsOf s).length > 15 → LeadTable.isPhoneValid (some s) = false) ∧
    (∀ s, MapView.isValueValid (some s) = true →
      (digitsOf s).length ≥ 8 → isRepeating (digitsOf s) = false →
      MapView.isPhoneValid (some s) = true) := by
  refine ⟨?_, by decide, by decide, ?_, ?_⟩
  · intro s hv h8 h15 hrep
    simp [LeadTable.isPhoneValid, hv, h8, h15, hrep]
  · intro s h15
    by_cases hv : LeadTable.isValueValid (some s)
    · have : ¬ (digitsOf s).length ≤ 15 := by omega
      simp [LeadTable.isPhoneValid, hv, this]
    · simp [LeadTable.isPhoneValid, hv]
  · intro s hv h8 hrep
    simp [MapView.isPhoneValid, hv, h8, hrep]

/-- Witness for the C6 amended theorem at concrete inputs. -/
theorem isPhoneValid_digit_rules_witness :
    LeadTable.isPhoneValid (some "+91 98765 43210") = true ∧
    LeadTable.isPhoneValid (some "1234567890123456") = false ∧
    MapView.isPhoneValid (some "88776655") = true :=
  ⟨isPhoneValid_digit_rules.1 "+91 98765 43210" (by decide) (by decide) (by decide) (by decide),
   isPhoneValid_digit_rules.2.2.2.1 "1234567890123456" (by decide),
   isPhoneValid_digit_rules.2.2.2.2 "88776655" (by decide) (by decide) (by decide)⟩

/-- The haversine intermediate vanishes between a point and itself. -/
theorem haverA_self (lat lon : ℝ) : haverA lat lon lat lon = 0 := by
  simp [haverA]

/-- The haversine intermediate is symmetric in its two coordinate pairs. -/
theorem haverA_symm (lat1 lon1 lat2 lon2 : ℝ) :
    haverA lat1 lon1 lat2 lon2 = haverA lat2 lon2 lat1 lon1 := by
  unfold haverA
  have h1 : (lat1 - lat2) * (Real.pi / 180) / 2 = -((lat2 - lat1) * (Real.pi / 180) / 2) := by
    ring
  have h2 : (lon1 - lon2) * (Real.pi / 180) / 2 = -((lon2 - lon1) * (Real.pi / 180) / 2) := by
    ring
  rw [h1, h2, Real.sin_neg, Real.sin_neg]
  ring

/-- C8: `calculateDistance` from a point to itself is 0 (both through the
zero-coordinate guard and through the haversine formula), and the distance
is symmetric in its two coordinate pairs. -/
theorem calculateDistance_self_and_symm :
    (∀ lat lon : ℝ, calculateDistance lat lon lat lon = 0) ∧
    (∀ lat1 lon1 lat2 lon2 : ℝ,
      calculateDistance lat1 lon1 lat2 lon2 = calculateDistance lat2 lon2 lat1 lon1) := by
  constructor
  · intro lat lon
    unfold calculateDistance
    rw [haverA_self]
    simp [atan2, Real.arctan_zero]
  · intro lat1 lon1 lat2 lon2
    unfold calculateDistance
    rw [haverA_symm lat1 lon1 lat2 lon2]
    exact if_congr (by tauto) rfl rfl

/-- C10: whenever any of the four coordinates is zero (the JS falsy guard
`!lat1 || !lon1 || !lat2 || !lon2`), `calculateDistance` short-circuits to
0 without evaluating the haversine formula. -/
theorem calculateDistance_zero_guard (lat1 lon1 lat2 lon2 : ℝ)
    (h : lat1 = 0 ∨ lon1 = 0 ∨ lat2 = 0 ∨ lon2 = 0) :
    calculateDistance lat1 lon1 lat2 lon2 = 0 := by
  unfold calculateDistance
  exact if_pos h

/-- Witness for C10: a point on the equator is reported at distance 0 from
an arbitrary distinct reference point. -/
theorem calculateDistance_zero_guard_witness :
    calculateDistance 0 45 30 60 = 0 ∧ calculateDistance 20 75 0 80 = 0 :=
  ⟨calculateDistance_zero_guard 0 45 30 60 (Or.inl rfl),
   calculateDistance_zero_guard 20 75 0 80 (Or.inr (Or.inr (Or.inl rfl)))⟩

/-- The shared parse-then-wrap tail of the extraction (lines 210-222): parse
one chosen string; a parse failure raises the ParseError message; otherwise
wrap the value into a candidate batch. -/
def parseWrap (s : String) : Except String (List JsonVal) :=
  match jsonParse s with
  | none => .error parseErrorMsg
  | some v => .ok (wrapResults v)

/-- C2 counterexample: on the input `"a[b]"` (a JSON string literal
containing brackets) the bracket pair is found, the slice `[b]` fails to
parse, and `extract` raises ParseError immediately — even though parsing
the entire text succeeds, so the claimed whole-text fallback would have
produced a one-element batch. -/
theorem extract_no_fallback_counterexample :
    extract "\"a[b]\"" = .error parseErrorMsg ∧
    jsonParse "\"a[b]\"" = some (.str "a[b]") ∧
    wrapResults (.str "a[b]") = [.str "a[b]"] :=
  ⟨rfl, rfl, rfl⟩

/-- C2 amended: extraction locates the first `[` and the last `]`; if both
are found it parses exactly that slice, and a failure of that parse raises
ParseError at once — the whole text is parsed only when no bracket pair is
found. A parsed non-array value is wrapped in a one-element batch, a
null/falsy parse yields the empty batch, and `extract "not json at all"`
fails with ParseError. -/
theorem extract_bracket_slice_or_whole :
    (∀ text : String,
      firstIdxOf text.toList '[' = none ∨ lastIdxOf text.toList ']' = none →
      extract text = parseWrap text) ∧
    (∀ text s e, firstIdxOf text.toList '[' = some s →
      lastIdxOf text.toList ']' = some e →
      extract text = parseWrap (jsSubstring text.toList s (e + 1)).asString) ∧
    (∀ s, parseWrap s = .error parseErrorMsg ↔ jsonParse s = none) ∧
    (∀ xs, wrapResults (.arr xs) = xs) ∧
    wrapResults .null = [] ∧
    (∀ v, jsFalsy v = false → (∀ xs, v ≠ .arr xs) → wrapResults v = [v]) ∧
    extract "not json at all" = .error parseErrorMsg := by
  refine ⟨?_, ?_, ?_, fun xs => rfl, rfl, ?_, rfl⟩
  · intro text h
    rcases h with h | h
    · simp only [extract, h, parseWrap]
    · cases hf : firstIdxOf text.toList '[' with
      | none => simp only [extract, hf, parseWrap]
      | some s => simp only [extract, hf, h, parseWrap]
  · intro text s e hf hl
    simp only [extract, hf, hl, parseWrap]
  · intro s
    cases h : jsonParse s with
    | none => simp [parseWrap, h]
    | some v => simp [parseWrap, h]
  · intro v hfalsy hnarr
    cases v with
    | arr xs => exact absurd rfl (hnarr xs)
    | null => simp [jsFalsy] at hfalsy
    | bool b => simp [wrapResults, hfalsy]
    | num lx => simp [wrapResults, hfalsy]
    | str st => simp [wrapResults, hfalsy]
    | obj fs => simp [wrapResults, jsFalsy]

/-- Witness for the C2 amended theorem at concrete inputs. -/
theorem extract_bracket_slice_or_whole_witness :
    extract "no json here" = parseWrap "no json here" ∧
    extract "pre [true] post" = parseWrap (jsSubstring "pre [true] post".toList 4 10).asString :=
  ⟨extract_bracket_slice_or_whole.1 "no json here" (Or.inl (by decide)),
   extract_bracket_slice_or_whole.2.1 "pre [true] post" 4 9 (by decide) (by decide)⟩

/-- A phone that survives the pro-variant filter as a non-empty string has
at least 8 digits, is not a repeated digit, and is not `1234567890`. -/
theorem sanitizePhoneV1_some_spec (raw : Option String) (p : String)
    (h : sanitizePhoneV1 raw = some p) (hne : p ≠ "") :
    (digitsOf p).length ≥ 8 ∧ isRepeating (digitsOf p) = false ∧
      digitsOf p ≠ "1234567890".toList := by
  unfold sanitizePhoneV1 at h
  by_cases ht : jsTruthyStr raw
  · rw [if_pos ht] at h
    by_cases hq : strTrim (raw.getD "") = ""
    · rw [if_pos hq] at h
      exact absurd (Option.some_injective _ h).symm (by simpa [hq] using hne)
    · rw [if_neg hq] at h
      by_cases hc : ((digitsOf (strTrim (raw.getD ""))).length < 8 ||
          isRepeating (digitsOf (strTrim (raw.getD ""))) ||
          digitsOf (strTrim (raw.getD "")) = "1234567890".toList : Bool)
      · rw [if_pos hc] at h
        exact absurd h (by simp)
      · rw [if_neg hc] at h
        have hp : p = strTrim (raw.getD "") := (Option.some_injective _ h).symm
        subst hp
        simp only [Bool.or_eq_true, decide_eq_true_eq, not_or] at hc
        obtain ⟨⟨h1, h2⟩, h3⟩ := hc
        exact ⟨by omega, by simpa using h2, h3⟩
  · rw [if_neg ht] at h
    exact absurd h (by simp)

/-- A truthy phone whose trimmed form is non-empty and fails the digit
filter is set to `null` by the pro-variant sanitizer. -/
theorem sanitizePhoneV1_none_of_filter (p : String) (htrim : strTrim p ≠ "")
    (hfilter : (digitsOf (strTrim p)).length < 8 ∨
      isRepeating (digitsOf (strTrim p)) = true ∨
      digitsOf (strTrim p) = "1234567890".toList) :
    sanitizePhoneV1 (some p) = none := by
  have hpe : p ≠ "" := by
    intro hp
    exact htrim (by rw [hp]; rfl)
  have ht : jsTruthyStr (some p) = true := by simp [jsTruthyStr, hpe]
  unfold sanitizePhoneV1
  rw [ht, if_pos rfl]
  simp only [Option.getD_some]
  rw [if_neg htrim]
  have hc : ((digitsOf (strTrim p)).length < 8 ||
      isRepeating (digitsOf (strTrim p)) ||
      digitsOf (strTrim p) = "1234567890".toList : Bool) = true := by
    rcases hfilter with h | h | h <;> simp [h]
  rw [if_pos hc]

/-- The `x || null` coercion never yields the empty string. -/
theorem orNull_some_ne_empty (o : Option String) (s : String)
    (h : orNull o = some s) : s ≠ "" := by
  cases o with
  | none => simp [orNull, jsTruthyStr] at h
  | some a =>
    by_cases ha : a = ""
    · simp [orNull, jsTruthyStr, ha] at h
    · have : a = s := by simpa [orNull, jsTruthyStr, ha] using h
      exact this ▸ ha

/-- C1 counterexample: normalization applies no FieldValidator check to the
contact fields. A candidate with email `"N/A"` yields a Lead whose email is
the raw noise value (which fails `isValueValid`); a whitespace-only phone
yields the empty string through the pro variant; and the flash variant
passes a placeholder phone that fails `isPhoneValid` straight through. -/
theorem normalize_unsanitized_contact_counterexample :
    (normalizeItemV1 0 "2024-05-01" 0 { email := some "N/A" }).email = some "N/A" ∧
    LeadTable.isValueValid (some "N/A") = false ∧
    MapView.isValueValid (some "N/A") = false ∧
    (normalizeItemV1 0 "2024-05-01" 0 { formatted_phone_number := some " " }).phone = some "" ∧
    (normalizeItemV2 0 "2024-05-01" 0 { phone := some "0000000000" }).phone = some "0000000000" ∧
    LeadTable.isPhoneValid (some "0000000000") = false ∧
    MapView.isPhoneValid (some "0000000000") = false :=
  ⟨rfl, by decide, by decide, rfl, rfl, by decide, by decide⟩

/-- C1 amended: in both normalizer variants, `email`, `website` and `owner`
are either null or exactly the raw upstream value (`x || null` — truthy
values pass through with no FieldValidator check, so they are never the
empty string but may be arbitrary unsanitized text). The `phone` field of
the pro variant, whenever it is a non-empty string, has passed the
placeholder digit filter (at least 8 digits, not a single repeated digit,
not `1234567890`) — though a whitespace-only upstream phone survives as
the empty string — while the flash variant's phone is the raw `x || null`
value. -/
theorem normalize_contact_field_invariants :
    (∀ now today idx item,
      (normalizeItemV1 now today idx item).owner = none ∧
      (normalizeItemV1 now today idx item).email = orNull item.email ∧
      (normalizeItemV1 now today idx item).website = orNull item.website) ∧
    (∀ o s, orNull o = some s → s ≠ "") ∧
    (∀ now today idx item p,
      (normalizeItemV1 now today idx item).phone = some p → p ≠ "" →
      (digitsOf p).length ≥ 8 ∧ isRepeating (digitsOf p) = false ∧
        digitsOf p ≠ "1234567890".toList) ∧
    (∀ now today idx item,
      (normalizeItemV2 now today idx item).phone = orNull item.phone ∧
      (normalizeItemV2 now today idx item).email = orNull item.email ∧
      (normalizeItemV2 now today idx item).website = orNull item.website ∧
      (normalizeItemV2 now today idx item).owner = orNull item.owner) := by
  refine ⟨fun now today idx item => ⟨rfl, rfl, rfl⟩, orNull_some_ne_empty, ?_,
    fun now today idx item => ⟨rfl, rfl, rfl, rfl⟩⟩
  intro now today idx item p h hne
  exact sanitizePhoneV1_some_spec item.formatted_phone_number p h hne

/-- Witness for the C1 amended theorem at a concrete candidate. -/
theorem normalize_contact_field_invariants_witness :
    (digitsOf "+91 98765 43210").length ≥ 8 ∧
      isRepeating (digitsOf "+91 98765 43210") = false ∧
      digitsOf "+91 98765 43210" ≠ "1234567890".toList :=
  normalize_contact_field_invariants.2.2.1 3 "2024-05-01" 1
    { formatted_phone_number := some "+91 98765 43210" } "+91 98765 43210" rfl (by decide)

/-- C4 counterexample: the flash variant (lines 224-247) applies no phone
filtering, so the candidate phone `"1234567890"` — the claim's own
example — survives normalization there instead of becoming null; in the
pro variant a whitespace-only phone (0 digits, fewer than 8) survives as
`""` rather than null. -/
theorem phone_placeholder_passthrough_counterexample :
    (normalizeItemV2 0 "2024-05-01" 0 { phone := some "1234567890" }).phone =
      some "1234567890" ∧
    (normalizeItemV1 5 "2024-05-01" 2 { formatted_phone_number := some "  " }).phone =
      some "" ∧
    digitsOf "  " = [] :=
  ⟨rfl, rfl, rfl⟩

/-- C4 amended: the placeholder filter lives only in the pro variant, and
fires only when the trimmed phone is non-empty: a truthy candidate phone
whose trimmed form has fewer than 8 digits, or is a single repeated digit,
or strips to exactly `1234567890`, normalizes to null there (in particular
`"1234567890"` yields null). The flash variant stores the raw `x || null`
phone with no filtering. -/
theorem phone_placeholder_filter :
    (∀ now today idx item p, item.formatted_phone_number = some p →
      strTrim p ≠ "" →
      ((digitsOf (strTrim p)).length < 8 ∨
        isRepeating (digitsOf (strTrim p)) = true ∨
        digitsOf (strTrim p) = "1234567890".toList) →
      (normalizeItemV1 now today idx item).phone = none) ∧
    (∀ now today idx item,
      (normalizeItemV2 now today idx item).phone = orNull item.phone) := by
  refine ⟨?_, fun now today idx item => rfl⟩
  intro now today idx item p hp htrim hfilter
  show sanitizePhoneV1 item.formatted_phone_number = none
  rw [hp]
  exact sanitizePhoneV1_none_of_filter p htrim hfilter

/-- Witness for the C4 amended theorem: the claim's own example input
`"1234567890"` normalizes to a null phone in the pro variant. -/
theorem phone_placeholder_filter_witness :
    (normalizeItemV1 0 "2024-05-01" 0 { formatted_phone_number := some "1234567890" }).phone =
      none :=
  phone_placeholder_filter.1 0 "2024-05-01" 0
    { formatted_phone_number := some "1234567890" } "1234567890" rfl (by decide)
    (Or.inr (Or.inr (by decide)))

/-! ## Decimal representation facts for id uniqueness (C5) -/

/-- Digit characters from `Nat.digitChar` are never a dash. -/
theorem digitChar_ne_dash (n : Nat) : Nat.digitChar n ≠ '-' := by
  by_cases h : n < 16
  · interval_cases n <;> decide
  · have h16 : Nat.digitChar n = '*' := by
      unfold Nat.digitChar
      have hne : ∀ m : Nat, m < 16 → ¬ n = m := by omega
      rw [if_neg (hne 0 (by norm_num)), if_neg (hne 1 (by norm_num)),
        if_neg (hne 2 (by norm_num)), if_neg (hne 3 (by norm_num)),
        if_neg (hne 4 (by norm_num)), if_neg (hne 5 (by norm_num)),
        if_neg (hne 6 (by norm_num)), if_neg (hne 7 (by norm_num)),
        if_neg (hne 8 (by norm_num)), if_neg (hne 9 (by norm_num)),
        if_neg (hne 10 (by norm_num)), if_neg (hne 11 (by norm_num)),
        if_neg (hne 12 (by norm_num)), if_neg (hne 13 (by norm_num)),
        if_neg (hne 14 (by norm_num)), if_neg (hne 15 (by norm_num))]
    rw [h16]; decide

/-- Characters added by `Nat.toDigitsCore` are digit characters, never a dash. -/
theorem toDigitsCore_ne_dash (b : Nat) :
    ∀ (f n : Nat) (acc : List Char), (∀ c ∈ acc, c ≠ '-') →
      ∀ c ∈ Nat.toDigitsCore b f n acc, c ≠ '-' := by
  intro f
  induction f with
  | zero =>
    intro n acc hacc c hc
    exact hacc c (by simpa [Nat.toDigitsCore] using hc)
  | succ f ih =>
    intro n acc hacc c hc
    simp only [Nat.toDigitsCore] at hc
    split at hc
    · rcases List.mem_cons.mp hc with h | h
      · exact h ▸ digitChar_ne_dash (n % b)
      · exact hacc c h
    · refine ih (n / b) (Nat.digitChar (n % b) :: acc) ?_ c hc
      intro d hd
      rcases List.mem_cons.mp hd with h | h
      · exact h ▸ digitChar_ne_dash (n % b)
      · exact hacc d h

/-- The decimal representation of a natural number contains no dash. -/
theorem repr_ne_dash (n : Nat) : ∀ c ∈ (Nat.repr n).toList, c ≠ '-' := by
  intro c hc
  have hc2 : c ∈ Nat.toDigitsCore 10 (n + 1) n [] := by
    simpa [Nat.repr, Nat.toDigits, List.toList_asString] using hc
  exact toDigitsCore_ne_dash 10 (n + 1) n [] (by simp) c hc2

/-- Decimal value of a digit string, starting from accumulator `i`. -/
def decValFrom (i : Nat) (l : List Char) : Nat :=
  l.foldl (fun a c => a * 10 + (c.toNat - 48)) i

/-- Splitting the accumulator out of `decValFrom`. -/
theorem decValFrom_shift (l : List Char) :
    ∀ i, decValFrom i l = i * 10 ^ l.length + decValFrom 0 l := by
  induction l with
  | nil => intro i; simp [decValFrom]
  | cons c t ih =>
    intro i
    simp only [decValFrom, List.foldl_cons] at *
    rw [ih (i * 10 + (c.toNat - 48)), ih (0 * 10 + (c.toNat - 48)),
      List.length_cons, pow_succ]
    ring

/-- Code of `Nat.digitChar` at a decimal digit is the digit plus 48. -/
theorem digitChar_toNat (d : Nat) (h : d < 10) : (Nat.digitChar d).toNat = 48 + d := by
  interval_cases d <;> decide

/-- Peeling one character off `decValFrom`. -/
theorem decValFrom_cons (i : Nat) (c : Char) (l : List Char) :
    decValFrom i (c :: l) = decValFrom (i * 10 + (c.toNat - 48)) l := rfl

/-- Evaluation of `Nat.toDigitsCore` really is the decimal representation: its decimal
value recovers the number (given sufficient fuel). -/
theorem toDigitsCore_decVal :
    ∀ (f n : Nat) (acc : List Char), n < f →
      decValFrom 0 (Nat.toDigitsCore 10 f n acc) =
        n * 10 ^ acc.length + decValFrom 0 acc := by
  intro f
  induction f with
  | zero => intro n acc h; exact absurd h (Nat.not_lt_zero n)
  | succ f ih =>
    intro n acc h
    have hmod : n % 10 < 10 := Nat.mod_lt n (by norm_num)
    have hd : (Nat.digitChar (n % 10)).toNat - 48 = n % 10 := by
      rw [digitChar_toNat (n % 10) hmod]; omega
    simp only [Nat.toDigitsCore]
    split
    · rename_i hdiv
      have hn : n % 10 = n := by omega
      rw [decValFrom_cons, decValFrom_shift, hd, hn]
      ring
    · rename_i hdiv
      have hpos : 0 < n := by
        rcases Nat.eq_zero_or_pos n with h0 | h0
        · exact absurd (by simp [h0]) hdiv
        · exact h0
      have hlt : n / 10 < f := by
        have := Nat.div_lt_self hpos (by norm_num : 1 < 10)
        omega
      rw [ih (n / 10) (Nat.digitChar (n % 10) :: acc) hlt,
        decValFrom_cons, decValFrom_shift, hd, List.length_cons, pow_succ]
      have hdm : 10 * (n / 10) + n % 10 = n := Nat.div_add_mod n 10
      calc n / 10 * (10 ^ acc.length * 10) +
            ((0 * 10 + n % 10) * 10 ^ acc.length + decValFrom 0 acc)
          = (10 * (n / 10) + n % 10) * 10 ^ acc.length + decValFrom 0 acc := by ring
        _ = n * 10 ^ acc.length + decValFrom 0 acc := by rw [hdm]

/-- The decimal value of `Nat.repr n` is `n`. -/
theorem repr_decVal (n : Nat) : decValFrom 0 (Nat.repr n).toList = n := by
  have h := toDigitsCore_decVal (n + 1) n [] (Nat.lt_succ_self n)
  simpa [Nat.repr, Nat.toDigits, List.toList_asString, decValFrom] using h

/-- Distinct naturals have distinct decimal representations (char level). -/
theorem repr_toList_inj {a b : Nat}
    (h : (Nat.repr a).toList = (Nat.repr b).toList) : a = b := by
  have h2 := congrArg (decValFrom 0) h
  rwa [repr_decVal, repr_decVal] at h2

/-- The segment after the last dash. -/
def lastSeg (l : List Char) : List Char :=
  (l.reverse.takeWhile (fun c => c ≠ '-')).reverse

/-- Applying `lastSeg` recovers a dash-free suffix. -/
theorem lastSeg_append (x y : List Char) (hy : ∀ c ∈ y, c ≠ '-') :
    lastSeg (x ++ '-' :: y) = y := by
  unfold lastSeg
  rw [List.reverse_append, List.reverse_cons, List.append_assoc, List.singleton_append,
    List.takeWhile_append_of_pos (by intro a ha; simpa using hy a (List.mem_reverse.mp ha)),
    List.takeWhile_cons_of_neg (by simp), List.append_nil, List.reverse_reverse]

/-- The batch index is recoverable from a lead id, so ids with distinct
indices are distinct regardless of the timestamps. -/
theorem mkId_inj {t1 i1 t2 i2 : Nat} (h : mkId t1 i1 = mkId t2 i2) : i1 = i2 := by
  have hdata := congrArg String.toList h
  have e1 : ∀ t i : Nat, (mkId t i).toList =
      ("lead-".toList ++ (Nat.repr t).toList) ++ '-' :: (Nat.repr i).toList := by
    intro t i
    show ("lead-" ++ Nat.repr t ++ "-" ++ Nat.repr i).data = _
    simp [String.data_append, String.toList, List.append_assoc]
  rw [e1, e1] at hdata
  have h2 := congrArg lastSeg hdata
  rw [lastSeg_append _ _ (repr_ne_dash i1), lastSeg_append _ _ (repr_ne_dash i2)] at h2
  exact repr_toList_inj h2

/-- The id column of a normalized batch, as a function of the index only. -/
theorem normalize_ids_eq (now : Nat → Nat) (today : String) (items : List RawItem) :
    ((normalizeV1 now today items).map (fun l => l.id) =
      (List.range items.length).map (fun i => mkId (now i) i)) ∧
    ((normalizeV2 now today items).map (fun l => l.id) =
      (List.range items.length).map (fun i => mkId (now i) i)) := by
  constructor
  · unfold normalizeV1
    rw [List.map_map]
    rw [show ((fun l : BusinessLead => l.id) ∘
        fun p : Nat × RawItem => normalizeItemV1 (now p.1) today p.1 p.2)
      = (fun i => mkId (now i) i) ∘ Prod.fst from rfl]
    rw [← List.map_map, List.enum_map_fst]
  · unfold normalizeV2
    rw [List.map_map]
    rw [show ((fun l : BusinessLead => l.id) ∘
        fun p : Nat × RawItem => normalizeItemV2 (now p.1) today p.1 p.2)
      = (fun i => mkId (now i) i) ∘ Prod.fst from rfl]
    rw [← List.map_map, List.enum_map_fst]

/-- C5: both normalizer variants produce exactly one Lead per candidate (no
record is dropped; unusable fields get placeholder defaults instead), and
the ids within a batch are pairwise distinct, whatever `Date.now()` returns
at each step. -/
theorem normalize_count_and_unique_ids (now : Nat → Nat) (today : String)
    (items : List RawItem) :
    (normalizeV1 now today items).length = items.length ∧
    ((normalizeV1 now today items).map (fun l => l.id)).Nodup ∧
    (normalizeV2 now today items).length = items.length ∧
    ((normalizeV2 now today items).map (fun l => l.id)).Nodup := by
  have hinj : Function.Injective (fun i => mkId (now i) i) := fun a b hab => mkId_inj hab
  refine ⟨?_, ?_, ?_, ?_⟩
  · simp [normalizeV1]
  · rw [(normalize_ids_eq now today items).1]
    exact (List.nodup_range items.length).map hinj
  · simp [normalizeV2]
  · rw [(normalize_ids_eq now today items).2]
    exact (List.nodup_range items.length).map hinj

/-- Shifting the doubled backoff one step restores the geometric schedule. -/
theorem delays_geometric (d j : Nat) :
    d :: (List.range j).map (fun t => d * 2 * 2 ^ t) =
      (List.range (j + 1)).map (fun t => d * 2 ^ t) := by
  rw [List.range_succ_eq_map, List.map_cons, List.map_map]
  have hfun : ((fun t => d * 2 ^ t) ∘ Nat.succ) = fun t => d * 2 * 2 ^ t := by
    funext t
    simp [Function.comp, pow_succ]
    ring
  rw [hfun]
  simp

/-- One unfolding step of the retry loop. -/
theorem withRetryAux_succ {α : Type} (op : Nat → OpResult α) (r delay k : Nat)
    (ds : List Nat) :
    withRetryAux op (r + 1) delay k ds =
      match op k with
      | .ok a => ⟨k + 1, ds, .ok a⟩
      | .fail msg =>
        if (classifyError msg).isRetryable && r ≠ 0 then
          withRetryAux op r (delay * 2) (k + 1) (ds ++ [delay])
        else ⟨k + 1, ds, .fail msg⟩ := rfl

/-- Retry loop, success case: after `j` retryable failures the operation
succeeds; the loop stops with `j + 1` invocations and doubling waits. -/
theorem withRetryAux_ok {α : Type} (op : Nat → OpResult α) (v : α) :
    ∀ (j : Nat) (msgs : Nat → String) (r d k : Nat) (ds : List Nat), j < r →
      (∀ t, t < j → op (k + t) = .fail (msgs t) ∧
        (classifyError (msgs t)).isRetryable = true) →
      op (k + j) = .ok v →
      withRetryAux op r d k ds =
        ⟨k + j + 1, ds ++ (List.range j).map (fun t => d * 2 ^ t), .ok v⟩ := by
  intro j
  induction j with
  | zero =>
    intro msgs r d k ds hr hfail hok
    match r, hr with
    | rr + 1, _ =>
      rw [Nat.add_zero] at hok
      simp [withRetryAux_succ, hok]
  | succ j ih =>
    intro msgs r d k ds hr hfail hok
    match r, hr with
    | rr + 1, hr =>
      have h0 := hfail 0 (Nat.succ_pos j)
      rw [Nat.add_zero] at h0
      have hrr : rr ≠ 0 := by omega
      simp only [withRetryAux_succ, h0.1]
      rw [if_pos (by simp [h0.2, hrr])]
      have hih := ih (fun t => msgs (t + 1)) rr (d * 2) (k + 1) (ds ++ [d])
        (by omega)
        (by
          intro t ht
          have := hfail (t + 1) (by omega)
          rwa [show k + (t + 1) = k + 1 + t by omega] at this)
        (by rwa [show k + 1 + j = k + (j + 1) by omega])
      rw [hih]
      rw [List.append_assoc, List.singleton_append, delays_geometric]
      congr 1
      omega

/-- Retry loop, exhaustion case: every attempt fails with a retryable
error; the loop performs exactly `r` invocations and propagates the last
failure message unchanged. -/
theorem withRetryAux_exhaust {α : Type} (op : Nat → OpResult α) :
    ∀ (r : Nat) (msgs : Nat → String) (d k : Nat) (ds : List Nat), 0 < r →
      (∀ t, t < r → op (k + t) = .fail (msgs t) ∧
        (classifyError (msgs t)).isRetryable = true) →
      withRetryAux op r d k ds =
        ⟨k + r, ds ++ (List.range (r - 1)).map (fun t => d * 2 ^ t),
          .fail (msgs (r - 1))⟩ := by
  intro r
  induction r with
  | zero => intro msgs d k ds hr; exact absurd hr (by omega)
  | succ rr ih =>
    intro msgs d k ds hr hfail
    have h0 := hfail 0 (Nat.succ_pos rr)
    rw [Nat.add_zero] at h0
    by_cases hrr : rr = 0
    · subst hrr
      simp [withRetryAux_succ, h0.1]
    · simp only [withRetryAux_succ, h0.1]
      rw [if_pos (by simp [h0.2, hrr])]
      have hih := ih (fun t => msgs (t + 1)) (d * 2) (k + 1) (ds ++ [d])
        (by omega)
        (by
          intro t ht
          have := hfail (t + 1) (by omega)
          rwa [show k + (t + 1) = k + 1 + t by omega] at this)
      rw [hih]
      simp only [List.append_assoc, List.singleton_append, Nat.succ_sub_one]
      rw [delays_geometric]
      rw [show rr - 1 + 1 = rr from by omega]
      congr 1
      omega

/-- C3: the retry policy invokes the operation; a failure classified as
transient/rate-limited is retried after a wait that doubles each time, up
to `maxAttempts` sequential invocations; a non-retryable classification
stops after the first invocation, exhaustion stops after `maxAttempts`,
and both propagate the final error message unchanged; a success after `j`
retryable failures returns the value after exactly `j + 1` invocations. -/
theorem withRetry_policy (α : Type) (op : Nat → OpResult α) (m d : Nat) :
    (∀ (j : Nat) (v : α) (msgs : Nat → String), j < m →
      (∀ t, t < j → op t = .fail (msgs t) ∧
        (classifyError (msgs t)).isRetryable = true) →
      op j = .ok v →
      withRetry op m d = ⟨j + 1, (List.range j).map (fun t => d * 2 ^ t), .ok v⟩) ∧
    (∀ msg : String, 0 < m → op 0 = .fail msg →
      (classifyError msg).isRetryable = false →
      withRetry op m d = ⟨1, [], .fail msg⟩) ∧
    (∀ msgs : Nat → String, 0 < m →
      (∀ t, t < m → op t = .fail (msgs t) ∧
        (classifyError (msgs t)).isRetryable = true) →
      withRetry op m d =
        ⟨m, (List.range (m - 1)).map (fun t => d * 2 ^ t), .fail (msgs (m - 1))⟩) := by
  refine ⟨?_, ?_, ?_⟩
  · intro j v msgs hj hfail hok
    have h := withRetryAux_ok op v j msgs m d 0 [] hj
      (by intro t ht; simpa using hfail t ht) (by simpa using hok)
    simpa using h
  · intro msg hm h0 hnr
    match m, hm with
    | mm + 1, _ =>
      unfold withRetry
      simp [withRetryAux_succ, h0, hnr]
  · intro msgs hm hfail
    have h := withRetryAux_exhaust op m msgs d 0 [] hm
      (by intro t ht; simpa using hfail t ht)
    simpa using h

/-- Witness for C3: an operation failing twice with quota-classified errors
then succeeding, under `maxAttempts = 3` and `initialDelay = 100`, returns
the success after exactly 3 invocations with waits 100 then 200; a
non-retryable invalid-argument failure stops after 1 invocation. -/
theorem withRetry_policy_witness :
    withRetry (fun k => if k < 2 then .fail "429 quota exceeded" else .ok 42) 3 100 =
      ⟨3, [100, 200], .ok 42⟩ ∧
    withRetry (fun _ => (.fail "INVALID_ARGUMENT: bad schema" : OpResult Nat)) 3 100 =
      ⟨1, [], .fail "INVALID_ARGUMENT: bad schema"⟩ :=
  ⟨(withRetry_policy Nat _ 3 100).1 2 42 (fun _ => "429 quota exceeded")
      (by decide)
      (by
        intro t ht
        exact ⟨by simp [ht],
          (by decide : (classifyError "429 quota exceeded").isRetryable = true)⟩)
      (by simp),
    (withRetry_policy Nat _ 3 100).2.1 "INVALID_ARGUMENT: bad schema"
      (by decide) rfl (by decide)⟩

/-- A concrete fresh-result batch used to exhibit the stale overwrite. -/
def freshBatch : List BusinessLead :=
  [normalizeItemV1 1 "2024-05-01" 0 { name := some "Fresh Cafe", address := some "Delhi" }]

/-- A concrete stale-result batch used to exhibit the stale overwrite. -/
def staleBatch : List BusinessLead :=
  [normalizeItemV1 0 "2024-05-01" 0 { name := some "Stale Bakery", address := some "Pune" }]

/-- C9 counterexample: `performSearch` carries no generation token, so when
a search is superseded and the newer invocation resolves first, the stale
result that arrives afterwards *is* applied and overwrites the newer leads
state. -/
theorem stale_result_overwrites_counterexample :
    (runSearchEvents
      [.start "Pune" "bakery", .start "Delhi" "cafe",
       .resolveOk "Delhi" "cafe" freshBatch,
       .resolveOk "Pune" "bakery" staleBatch]).leads = staleBatch ∧
    staleBatch ≠ freshBatch := by
  constructor
  · rfl
  · decide

/-- C9 amended: the consumer compares nothing before applying a result:
whichever resolution arrives last wins, regardless of which invocation it
belongs to. After any event sequence ending in a successful resolution,
the leads state is that resolution's batch. -/
theorem search_last_resolution_wins (events : List SearchEvent)
    (city cats : String) (rs : List BusinessLead) :
    (runSearchEvents (events ++ [.resolveOk city cats rs])).leads = rs := by
  unfold runSearchEvents
  rw [List.foldl_append]
  rfl
